import Mathlib

/-!
Shallow embedding of the `scg-error` Go package (`error/error.go`,
`error/options.go`, `wrap.go`) and of the pieces of the Go standard
library it relies on (`errors.New`, `errors.As`, `Unwrap` traversal).

Go maps are mutable reference values.  We embed a `map[string]any`
as the unfolding of an acyclic heap: every allocated map object
carries the address (`Nat`) it was allocated at, and aliasing is
represented by the same address occurring in two values.  Allocation
is modelled by threading a fresh-address counter through every
operation that executes `make(map[string]any)` in Go.  Mutating a map
object through one alias is modelled by `mutM addr f`, which rewrites
the entries of the (unique) node carrying `addr`; a value that does not
contain `addr` is unaffected, which is exactly the heap fact "mutation
through a disjoint reference does not change this value".
Non-map context values (`any` that is not a `map[string]any`) are
opaque to the package; they are embedded as `Val.prim tag`.
-/

set_option autoImplicit false

namespace ScgError

mutual
/-- A Go `any` value stored in an error context: either an opaque
non-map value (identified by a tag) or a `map[string]any`. -/
inductive Val where
| prim (tag : Nat) : Val
| vmap (m : GoMap) : Val

/-- A Go `map[string]any` variable: `nil`, or a reference to a map
object allocated at `addr` holding `entries`. -/
inductive GoMap where
| nil : GoMap
| node (addr : Nat) (entries : Entries) : GoMap

/-- The entries of a map object, as an association list (Go map
iteration order is unspecified; entries keep insertion order here). -/
inductive Entries where
| nil : Entries
| cons (k : String) (v : Val) (rest : Entries) : Entries
end

/-- True iff an entry list is empty; `len(m) == 0` in Go is
`m = GoMap.nil` or a node whose entries satisfy `isNil`. -/
def Entries.isNil : Entries → Bool
| .nil => true
| .cons _ _ _ => false

mutual
/-- Addresses of map objects reachable from a value. -/
def addrsV : Val → List Nat
| .prim _ => []
| .vmap m => addrsM m

/-- Addresses of map objects reachable from a map variable. -/
def addrsM : GoMap → List Nat
| .nil => []
| .node a es => a :: addrsE es

/-- Addresses of map objects reachable from an entry list. -/
def addrsE : Entries → List Nat
| .nil => []
| .cons _ v rest => addrsV v ++ addrsE rest
end

mutual
/-- Structural content of a value with addresses forgotten and empty
map objects identified with `nil` (the spec treats "empty" and
"absent" context as the same observable). -/
def eraseV : Val → Val
| .prim t => .prim t
| .vmap m => .vmap (eraseM m)

/-- Structural content of a map variable, addresses forgotten. -/
def eraseM : GoMap → GoMap
| .nil => .nil
| .node _ .nil => .nil
| .node _ (.cons k v rest) => .node 0 (eraseE (.cons k v rest))

/-- Structural content of an entry list, addresses forgotten. -/
def eraseE : Entries → Entries
| .nil => .nil
| .cons k v rest => .cons k (eraseV v) (eraseE rest)
end

mutual
/-- Heap mutation as seen from a value: rewrite the entries of the map
object at address `x` with `f`, leave everything else in place. -/
def mutV (x : Nat) (f : Entries → Entries) : Val → Val
| .prim t => .prim t
| .vmap m => .vmap (mutM x f m)

/-- Heap mutation as seen from a map variable. -/
def mutM (x : Nat) (f : Entries → Entries) : GoMap → GoMap
| .nil => .nil
| .node a es => if a = x then .node a (f es) else .node a (mutE x f es)

/-- Heap mutation as seen from an entry list. -/
def mutE (x : Nat) (f : Entries → Entries) : Entries → Entries
| .nil => .nil
| .cons k v rest => .cons k (mutV x f v) (mutE x f rest)
end

mutual
/-- The dispatch inside `cloneMap`'s loop: a map-typed value is cloned
recursively (`out[k] = cloneMap(mv)`), any other value is copied as is
(`out[k] = v`). -/
def cloneVal (n : Nat) : Val → Nat × Val
| .prim t => (n, .prim t)
| .vmap m =>
    let r := cloneMap n m
    (r.1, .vmap r.2)

/-- Embedding of `cloneMap` (error.go): an empty or nil map clones to
nil; otherwise a fresh map object is allocated (`make`, fresh address
`n`) and every entry is copied, nested maps recursively. -/
def cloneMap (n : Nat) : GoMap → Nat × GoMap
| .nil => (n, .nil)
| .node _ .nil => (n, .nil)
| .node _ (.cons k v rest) =>
    let r := cloneEntries (n + 1) (.cons k v rest)
    (r.1, .node n r.2)

/-- The `for k, v := range in` loop body of `cloneMap`. -/
def cloneEntries (n : Nat) : Entries → Nat × Entries
| .nil => (n, .nil)
| .cons k v rest =>
    let rv := cloneVal n v
    let rr := cloneEntries rv.1 rest
    (rr.1, .cons k rv.2 rr.2)
end

/-- A Go `error` interface value (non-nil).  `basic` is an error built
by `errors.New` (message only, no `Unwrap`); `wrapper` is any foreign
error type that implements `Unwrap` (e.g. one built by
`fmt.Errorf("...: %w", inner)`), which the standard library's
`errors.As` traverses; `scg` is a non-nil `*Error` of this package,
carrying its six fields. -/
inductive GoErr where
| basic (msg : String) : GoErr
| wrapper (msg : String) (inner : Option GoErr) : GoErr
| scg (httpStatus : Int) (code key detail : String) (context : GoMap)
    (cause : Option GoErr) : GoErr

/-- The fields of the concrete `Error` struct (error.go).  A Go
`*Error` pointer is embedded as `Option Error`, `none` being the nil
pointer. -/
structure Error where
  httpStatus : Int
  code : String
  key : String
  detail : String
  context : GoMap
  cause : Option GoErr

/-- View a non-nil `*Error` as a Go `error` interface value. -/
def Error.toGoErr (e : Error) : GoErr :=
  .scg e.httpStatus e.code e.key e.detail e.context e.cause

/-- The `Error() string` method of each embedded error value: `basic`
and `wrapper` errors return their message; an `scg` error formats
`fmt.Sprintf("%s [%s] (%d)", code, key, httpStatus)`, appending
`": %v"` of the cause when one is present (`%v` on an error value
yields its `Error()` string). -/
def errorMessage : GoErr → String
| .basic m => m
| .wrapper m _ => m
| .scg s c k _ _ none => c ++ " [" ++ k ++ "] (" ++ toString s ++ ")"
| .scg s c k _ _ (some cs) =>
    c ++ " [" ++ k ++ "] (" ++ toString s ++ "): " ++ errorMessage cs

/-- The `(e *Error) Error() string` method: a nil receiver returns the
literal `"<nil>"`; otherwise the compact format above. -/
def ErrorString : Option Error → String
| none => "<nil>"
| some e => errorMessage e.toGoErr

/-- `(e *Error) HTTPStatus() int`.  The Go method body reads
`e.httpStatus` with no nil check, so a nil receiver panics: the panic
is embedded as `none`. -/
def HTTPStatus : Option Error → Option Int
| none => none
| some e => some e.httpStatus

/-- `(e *Error) Code() string`; nil receiver panics (`none`). -/
def Code : Option Error → Option String
| none => none
| some e => some e.code

/-- `(e *Error) Key() string`; nil receiver panics (`none`). -/
def Key : Option Error → Option String
| none => none
| some e => some e.key

/-- `(e *Error) Detail() string`; nil receiver panics (`none`). -/
def Detail : Option Error → Option String
| none => none
| some e => some e.detail

/-- `(e *Error) Context() map[string]any`, i.e. `cloneMap(e.context)`;
nil receiver panics (`none`).  Threads the allocation counter. -/
def Context (n : Nat) : Option Error → Option (Nat × GoMap)
| none => none
| some e => some (cloneMap n e.context)

/-- `(e *Error) Unwrap() error`; nil receiver panics (`none`). -/
def Unwrap : Option Error → Option (Option GoErr)
| none => none
| some e => some e.cause

/-- `New(httpStatus, code, key, detail, ctx, cause...)` (error.go):
defensively clones the context; the optional trailing cause is stored
as given. -/
def New (n : Nat) (httpStatus : Int) (code key detail : String)
    (ctx : GoMap) (cause : Option GoErr) : Nat × Error :=
  let r := cloneMap n ctx
  (r.1, ⟨httpStatus, code, key, detail, r.2, cause⟩)

/-- `defaultHTTPStatus` (options.go). -/
def defaultHTTPStatus : Int := 500

/-- `Wrap(cause, httpStatus, code, key, detail, ctx)` (wrap.go): a nil
cause is replaced by `errors.New("unknown")`; then `New` builds the
error and the cause is attached. -/
def Wrap (n : Nat) (cause : Option GoErr) (httpStatus : Int)
    (code key detail : String) (ctx : GoMap) : Nat × Error :=
  let c := match cause with
    | none => GoErr.basic "unknown"
    | some c0 => c0
  let r := New n httpStatus code key detail ctx none
  (r.1, { r.2 with cause := some c })

/-- The standard library's `errors.As(err, &e)` with target type
`*Error`: walk the `Unwrap` chain starting at `err` and return the
first value whose concrete type is `*Error`, or report no match. -/
def errorsAs : GoErr → Option Error
| .basic _ => none
| .wrapper _ none => none
| .wrapper _ (some inner) => errorsAs inner
| .scg s c k d ctx cs => some ⟨s, c, k, d, ctx, cs⟩

/-- `Ensure(err)` (wrap.go): nil stays nil; if `errors.As` finds an
`*Error` in the chain it is returned; otherwise the input is wrapped
into the generic internal envelope. -/
def Ensure (n : Nat) (err : Option GoErr) : Nat × Option Error :=
  match err with
  | none => (n, none)
  | some g =>
    match errorsAs g with
    | some e => (n, some e)
    | none =>
      let r := Wrap n (some g) defaultHTTPStatus "internal.error"
        "internal" "internal error" GoMap.nil
      (r.1, some r.2)

/-- The `Unwrap` chain of an error value: the value itself followed by
the chain of its cause, as traversed by `errors.Is` / `errors.As`. -/
def unwrapChain : GoErr → List GoErr
| .basic m => [.basic m]
| .wrapper m none => [.wrapper m none]
| .wrapper m (some inner) => .wrapper m (some inner) :: unwrapChain inner
| .scg s c k d ctx none => [.scg s c k d ctx none]
| .scg s c k d ctx (some cs) => .scg s c k d ctx (some cs) :: unwrapChain cs

/-- The four concrete `Option` constructors of options.go.  Go's
`Option` is `func(*Error)`; the package provides exactly these four,
each closing over one argument. -/
inductive OptSpec where
| withHTTPStatus (status : Int) : OptSpec
| withDetail (detail : String) : OptSpec
| withContext (ctx : GoMap) : OptSpec
| withCause (cause : Option GoErr) : OptSpec

/-- Running one option on the error under construction:
`WithHTTPStatus` sets `httpStatus`, `WithDetail` sets `detail`,
`WithContext` sets `context` to a defensive clone of its argument,
`WithCause` sets `cause`. -/
def applyOpt (n : Nat) (e : Error) : OptSpec → Nat × Error
| .withHTTPStatus s => (n, { e with httpStatus := s })
| .withDetail d => (n, { e with detail := d })
| .withContext m =>
    let r := cloneMap n m
    (r.1, { e with context := r.2 })
| .withCause c => (n, { e with cause := c })

/-- `E(code, key, opts...)` (options.go): start from the defaults
(`httpStatus = defaultHTTPStatus`, `detail = "error"`, zero-valued
context and cause) and apply the options in order. -/
def E (n : Nat) (code key : String) (opts : List OptSpec) : Nat × Error :=
  opts.foldl (fun r o => applyOpt r.1 r.2 o)
    (n, ⟨defaultHTTPStatus, code, key, "error", GoMap.nil, none⟩)

/-- Go map assignment `m[k] = v` on an entry list: overwrite the entry
holding `k` if present, otherwise append a new one. -/
def setEntry : Entries → String → Val → Entries
| .nil, k, v => .cons k v .nil
| .cons k0 v0 rest, k, v =>
    if k0 = k then .cons k0 v rest else .cons k0 v0 (setEntry rest k v)

/-- The `for k, v := range m { e.context[k] = v }` loop of
`WithContextMap`, folded over the source entries. -/
def mergeEntries : Entries → Entries → Entries
| acc, .nil => acc
| acc, .cons k v rest => mergeEntries (setEntry acc k v) rest

/-- `(e *Error) WithContextKV(k, v)` (error.go): nil receiver returns
nil; a nil context map is first replaced by a freshly allocated empty
map; then `e.context[k] = v` mutates the map object in place (same
address kept) and the receiver is returned. -/
def WithContextKV (n : Nat) (e? : Option Error) (k : String) (v : Val) :
    Nat × Option Error :=
  match e? with
  | none => (n, none)
  | some e =>
    match e.context with
    | .nil => (n + 1, some { e with context := .node n (setEntry .nil k v) })
    | .node a es => (n, some { e with context := .node a (setEntry es k v) })

/-- `(e *Error) WithContextMap(m)` (error.go): nil receiver, nil map or
empty map are no-ops returning the receiver; otherwise the entries of
`m` are assigned into the (created-on-first-use) context map, existing
keys overwritten, values copied by reference. -/
def WithContextMap (n : Nat) (e? : Option Error) (m : GoMap) :
    Nat × Option Error :=
  match e? with
  | none => (n, none)
  | some e =>
    match m with
    | .nil => (n, some e)
    | .node _ .nil => (n, some e)
    | .node _ (.cons k v rest) =>
      match e.context with
      | .nil =>
          (n + 1, some { e with
            context := .node n (mergeEntries .nil (.cons k v rest)) })
      | .node a es =>
          (n, some { e with
            context := .node a (mergeEntries es (.cons k v rest)) })

mutual
/-- Freshness of `cloneVal`: the counter does not decrease and every
address of the result lies in the allocated window `[n, n')`. -/
theorem cloneVal_bound (n : Nat) (v : Val) :
    n ≤ (cloneVal n v).1 ∧
      ∀ x ∈ addrsV (cloneVal n v).2, n ≤ x ∧ x < (cloneVal n v).1 := by
  cases v with
  | prim t => simp [cloneVal, addrsV]
  | vmap m =>
      have h := cloneMap_bound n m
      simpa [cloneVal, addrsV] using h

/-- Freshness of `cloneMap`: every address of the clone lies in the
allocated window `[n, n')`. -/
theorem cloneMap_bound (n : Nat) (m : GoMap) :
    n ≤ (cloneMap n m).1 ∧
      ∀ x ∈ addrsM (cloneMap n m).2, n ≤ x ∧ x < (cloneMap n m).1 := by
  cases m with
  | nil => simp [cloneMap, addrsM]
  | node a es =>
      cases es with
      | nil => simp [cloneMap, addrsM]
      | cons k v rest =>
          have h := cloneEntries_bound (n + 1) (.cons k v rest)
          refine ⟨by simpa [cloneMap] using Nat.le_of_succ_le h.1, ?_⟩
          intro x hx
          simp only [cloneMap, addrsM, List.mem_cons] at hx ⊢
          rcases hx with rfl | hx
          · exact ⟨Nat.le_refl _, Nat.lt_of_lt_of_le (Nat.lt_succ_self _) h.1⟩
          · have := h.2 x hx
            omega

/-- Freshness of `cloneEntries`. -/
theorem cloneEntries_bound (n : Nat) (es : Entries) :
    n ≤ (cloneEntries n es).1 ∧
      ∀ x ∈ addrsE (cloneEntries n es).2, n ≤ x ∧ x < (cloneEntries n es).1 := by
  cases es with
  | nil => simp [cloneEntries, addrsE]
  | cons k v rest =>
      have h1 := cloneVal_bound n v
      have h2 := cloneEntries_bound (cloneVal n v).1 rest
      refine ⟨by simpa [cloneEntries] using Nat.le_trans h1.1 h2.1, ?_⟩
      intro x hx
      simp only [cloneEntries, addrsE, List.mem_append] at hx ⊢
      rcases hx with hx | hx
      · have := h1.2 x hx
        have := h2.1
        omega
      · have := h2.2 x hx
        have := h1.1
        omega
end

mutual
/-- `cloneVal` preserves structural content. -/
theorem cloneVal_erase (n : Nat) (v : Val) :
    eraseV (cloneVal n v).2 = eraseV v := by
  cases v with
  | prim t => rfl
  | vmap m => simp [cloneVal, eraseV, cloneMap_erase n m]

/-- `cloneMap` preserves structural content: the clone of a map is
structurally equal to the input (addresses aside, empty and nil maps
identified). -/
theorem cloneMap_erase (n : Nat) (m : GoMap) :
    eraseM (cloneMap n m).2 = eraseM m := by
  cases m with
  | nil => rfl
  | node a es =>
      cases es with
      | nil => rfl
      | cons k v rest =>
          simp only [cloneMap, cloneEntries, eraseM, eraseE]
          have hv := cloneVal_erase (n + 1) v
          have hr := cloneEntries_erase (cloneVal (n + 1) v).1 rest
          simp [hv, hr]

/-- `cloneEntries` preserves structural content entrywise. -/
theorem cloneEntries_erase (n : Nat) (es : Entries) :
    eraseE (cloneEntries n es).2 = eraseE es := by
  cases es with
  | nil => rfl
  | cons k v rest =>
      simp only [cloneEntries, eraseE]
      simp [cloneVal_erase n v, cloneEntries_erase (cloneVal n v).1 rest]
end

mutual
/-- Mutating a map object whose address does not occur in a value
leaves the value unchanged. -/
theorem mutV_not_mem (x : Nat) (f : Entries → Entries) (v : Val)
    (h : x ∉ addrsV v) : mutV x f v = v := by
  cases v with
  | prim t => rfl
  | vmap m => simp [mutV, mutM_not_mem x f m (by simpa [addrsV] using h)]

/-- Mutating a map object whose address does not occur in a map
variable leaves it unchanged. -/
theorem mutM_not_mem (x : Nat) (f : Entries → Entries) (m : GoMap)
    (h : x ∉ addrsM m) : mutM x f m = m := by
  cases m with
  | nil => rfl
  | node a es =>
      simp only [addrsM, List.mem_cons, not_or] at h
      have hax : a ≠ x := fun hax => h.1 hax.symm
      simp [mutM, hax, mutE_not_mem x f es h.2]

/-- Mutating a map object whose address does not occur in an entry
list leaves it unchanged. -/
theorem mutE_not_mem (x : Nat) (f : Entries → Entries) (es : Entries)
    (h : x ∉ addrsE es) : mutE x f es = es := by
  cases es with
  | nil => rfl
  | cons k v rest =>
      simp only [addrsE, List.mem_append, not_or] at h
      simp [mutE, mutV_not_mem x f v h.1, mutE_not_mem x f rest h.2]
end

/-- Every error value occurs at the head of its own unwrap chain. -/
theorem self_mem_unwrapChain (g : GoErr) : g ∈ unwrapChain g := by
  cases g with
  | basic m => simp [unwrapChain]
  | wrapper m inner => cases inner <;> simp [unwrapChain]
  | scg s c k d ctx cs => cases cs <;> simp [unwrapChain]

/-- The compact diagnostic string of an `scg` error does not depend on
its detail or context fields. -/
theorem errorMessage_scg_congr (s : Int) (c k d d2 : String)
    (ctx ctx2 : GoMap) (cs : Option GoErr) :
    errorMessage (.scg s c k d ctx cs) = errorMessage (.scg s c k d2 ctx2 cs) := by
  cases cs <;> rfl

/-- C4: constructing an Error with a nil context map, or with an empty
(allocated but entryless) context map, stores "no context": the stored
`context` field is nil, and every subsequent `Context()` read returns
nil, never a present-but-empty map. -/
theorem new_empty_context_is_absent (n : Nat) (s : Int) (c k d : String)
    (a : Nat) (cause : Option GoErr) :
    (New n s c k d GoMap.nil cause).2.context = GoMap.nil
    ∧ (New n s c k d (GoMap.node a Entries.nil) cause).2.context = GoMap.nil
    ∧ (∀ n2, Context n2 (some (New n s c k d GoMap.nil cause).2)
        = some (n2, GoMap.nil))
    ∧ (∀ n2, Context n2 (some (New n s c k d (GoMap.node a Entries.nil) cause).2)
        = some (n2, GoMap.nil)) :=
  ⟨rfl, rfl, fun _ => rfl, fun _ => rfl⟩

/-- C5: `Wrap` with an absent cause substitutes the placeholder
`errors.New("unknown")`, so `Unwrap()` of the result is the non-absent
placeholder whose message is exactly "unknown"; and for every input
cause (absent or not) the resulting cause is non-absent, so `Wrap`
never leaves the causal chain empty. -/
theorem wrap_nil_cause_placeholder (n : Nat) (s : Int) (c k d : String)
    (ctx : GoMap) (cause : Option GoErr) :
    Unwrap (some (Wrap n none s c k d ctx).2) = some (some (GoErr.basic "unknown"))
    ∧ errorMessage (GoErr.basic "unknown") = "unknown"
    ∧ ((Wrap n cause s c k d ctx).2.cause).isSome = true := by
  refine ⟨rfl, rfl, ?_⟩
  cases cause <;> rfl

/-- C6: the diagnostic string is exactly `"<code> [<key>] (<httpStatus>)"`
without a cause and `"<code> [<key>] (<httpStatus>): <cause string>"`
with one; neither detail nor context appear in the format (shown in
general by the two format equations, and concretely on the spec's
instance, whose detail "internal error" and context key "secret" are
not substrings of the output); a nil receiver yields `"<nil>"`. -/
theorem error_string_format (s : Int) (c k d : String) (ctx : GoMap)
    (g : GoErr) :
    ErrorString (some ⟨s, c, k, d, ctx, none⟩)
      = c ++ " [" ++ k ++ "] (" ++ toString s ++ ")"
    ∧ ErrorString (some ⟨s, c, k, d, ctx, some g⟩)
      = c ++ " [" ++ k ++ "] (" ++ toString s ++ "): " ++ errorMessage g
    ∧ ErrorString none = "<nil>"
    ∧ ¬ List.IsInfix "internal error".toList
        (ErrorString (some ⟨500, "internal.error", "internal", "internal error",
          GoMap.node 0 (Entries.cons "secret" (Val.prim 7) Entries.nil), none⟩)).toList
    ∧ ¬ List.IsInfix "secret".toList
        (ErrorString (some ⟨500, "internal.error", "internal", "internal error",
          GoMap.node 0 (Entries.cons "secret" (Val.prim 7) Entries.nil), none⟩)).toList :=
  ⟨rfl, rfl, rfl, by decide, by decide⟩

/-- C7: for a two-level chain `e1 = Wrap(cause, ...)`,
`e2 = Wrap(e1, ...)`, the unwrap chain of `e2` contains both `e1` and
`cause`, and `e2`'s `HTTPStatus()`, `Code()` and `Key()` are exactly
the arguments of `e2`'s own construction, whatever `e1`'s fields
are. -/
theorem nested_wrap_chain (n1 n2 : Nat) (cause : GoErr)
    (s1 : Int) (c1 k1 d1 : String) (ctx1 : GoMap)
    (s2 : Int) (c2 k2 d2 : String) (ctx2 : GoMap) :
    let e1 := (Wrap n1 (some cause) s1 c1 k1 d1 ctx1).2
    let e2 := (Wrap n2 (some e1.toGoErr) s2 c2 k2 d2 ctx2).2
    e1.toGoErr ∈ unwrapChain e2.toGoErr
    ∧ cause ∈ unwrapChain e2.toGoErr
    ∧ HTTPStatus (some e2) = some s2
    ∧ Code (some e2) = some c2
    ∧ Key (some e2) = some k2 := by
  intro e1 e2
  have hchain : unwrapChain e2.toGoErr
      = e2.toGoErr :: e1.toGoErr :: unwrapChain cause := rfl
  refine ⟨?_, ?_, rfl, rfl, rfl⟩
  · rw [hchain]
    exact List.mem_cons_of_mem _ (List.mem_cons_self _ _)
  · rw [hchain]
    exact List.mem_cons_of_mem _
      (List.mem_cons_of_mem _ (self_mem_unwrapChain cause))

/-- C8: `WithContextKV` and `WithContextMap` on a nil receiver are
safe no-ops returning a nil receiver and leaving the allocation state
untouched. -/
theorem with_context_on_nil_receiver (n : Nat) (k : String) (v : Val)
    (m : GoMap) :
    WithContextKV n none k v = (n, none)
    ∧ WithContextMap n none m = (n, none) :=
  ⟨rfl, rfl⟩

/-- C10: on every non-nil receiver, `WithContextKV` and
`WithContextMap` change only the context: `HTTPStatus()`, `Code()`,
`Key()`, `Detail()`, `Unwrap()` and `Error()` observe the same values
on the result as on the receiver. -/
theorem with_context_frame (n : Nat) (e : Error) (k : String) (v : Val)
    (m : GoMap) :
    (HTTPStatus (WithContextKV n (some e) k v).2 = HTTPStatus (some e)
     ∧ Code (WithContextKV n (some e) k v).2 = Code (some e)
     ∧ Key (WithContextKV n (some e) k v).2 = Key (some e)
     ∧ Detail (WithContextKV n (some e) k v).2 = Detail (some e)
     ∧ Unwrap (WithContextKV n (some e) k v).2 = Unwrap (some e)
     ∧ ErrorString (WithContextKV n (some e) k v).2 = ErrorString (some e))
    ∧ (HTTPStatus (WithContextMap n (some e) m).2 = HTTPStatus (some e)
     ∧ Code (WithContextMap n (some e) m).2 = Code (some e)
     ∧ Key (WithContextMap n (some e) m).2 = Key (some e)
     ∧ Detail (WithContextMap n (some e) m).2 = Detail (some e)
     ∧ Unwrap (WithContextMap n (some e) m).2 = Unwrap (some e)
     ∧ ErrorString (WithContextMap n (some e) m).2 = ErrorString (some e)) := by
  have hstr : ∀ ctx' : GoMap,
      ErrorString (some { e with context := ctx' }) = ErrorString (some e) :=
    fun ctx' =>
      errorMessage_scg_congr e.httpStatus e.code e.key e.detail e.detail
        ctx' e.context e.cause
  constructor
  · cases hc : e.context with
    | nil =>
        simp only [WithContextKV, hc]
        exact ⟨rfl, rfl, rfl, rfl, rfl, hstr _⟩
    | node a es =>
        simp only [WithContextKV, hc]
        exact ⟨rfl, rfl, rfl, rfl, rfl, hstr _⟩
  · cases m with
    | nil => exact ⟨rfl, rfl, rfl, rfl, rfl, rfl⟩
    | node a0 es0 =>
        cases es0 with
        | nil => exact ⟨rfl, rfl, rfl, rfl, rfl, rfl⟩
        | cons k0 v0 rest0 =>
            cases hc : e.context with
            | nil =>
                simp only [WithContextMap, hc]
                exact ⟨rfl, rfl, rfl, rfl, rfl, hstr _⟩
            | node a es =>
                simp only [WithContextMap, hc]
                exact ⟨rfl, rfl, rfl, rfl, rfl, hstr _⟩

/-- C1 (counterexample): the claim that every accessor succeeds on
every receiver fails on the nil receiver: the Go bodies of
`HTTPStatus()`, `Code()`, `Key()`, `Detail()` and `Context()`
dereference the receiver without a nil check, so on a nil `*Error`
they panic (embedded as `none`, i.e. no value is returned). -/
theorem accessors_nil_receiver_counterexample :
    (HTTPStatus none).isSome = false
    ∧ (Code none).isSome = false
    ∧ (Key none).isSome = false
    ∧ (Detail none).isSome = false
    ∧ (Context 0 none).isSome = false :=
  ⟨rfl, rfl, rfl, rfl, rfl⟩

/-- C1 (amended): the accessors `HTTPStatus()`, `Code()`, `Key()`,
`Detail()`, `Context()` and `Unwrap()` always succeed on every non-nil
receiver; the operations that are additionally nil-safe are `Error()`
(returning "<nil>"), `WithContextKV` and `WithContextMap` (no-ops
returning a nil receiver). -/
theorem accessors_total_on_present_receiver (e : Error) (n : Nat)
    (k : String) (v : Val) (m : GoMap) :
    (HTTPStatus (some e)).isSome = true
    ∧ (Code (some e)).isSome = true
    ∧ (Key (some e)).isSome = true
    ∧ (Detail (some e)).isSome = true
    ∧ (Context n (some e)).isSome = true
    ∧ (Unwrap (some e)).isSome = true
    ∧ ErrorString none = "<nil>"
    ∧ WithContextKV n none k v = (n, none)
    ∧ WithContextMap n none m = (n, none) :=
  ⟨rfl, rfl, rfl, rfl, rfl, rfl, rfl, rfl, rfl⟩

/-- C2 (counterexample): the claim that every input other than an
`*Error` value is wrapped into the 500 / "internal.error" envelope
fails for a foreign wrapper error whose chain contains an `*Error`:
`Ensure` uses `errors.As`, which digs the inner `*Error` out, so the
result keeps the inner error's status 404 (not 500) and its cause is
not the original input. -/
theorem ensure_wrapper_counterexample :
    ((Ensure 0 (some (GoErr.wrapper "outer boom"
        (some (GoErr.scg 404 "customer.not_found" "not_found" "nf"
          GoMap.nil none))))).2.map Error.httpStatus = some 404)
    ∧ ((404 : Int) = 500 → False)
    ∧ ((Ensure 0 (some (GoErr.wrapper "outer boom"
        (some (GoErr.scg 404 "customer.not_found" "not_found" "nf"
          GoMap.nil none))))).2.map Error.cause = some none) :=
  ⟨rfl, by decide, rfl⟩

/-- C2 (amended): `Ensure(nil)` is nil; if `errors.As` finds an
`*Error` anywhere in the input's unwrap chain, that value is returned
unchanged — in particular an input that itself is an `*Error` is
returned with identity preserved; only an input whose chain contains
no `*Error` is wrapped with HTTPStatus 500, code "internal.error",
key "internal", detail "internal error", no context, and the original
input as the cause. -/
theorem ensure_rules (n : Nat) (e : Error) (g g2 : GoErr) (d : Error)
    (hnone : errorsAs g = none) (hfound : errorsAs g2 = some d) :
    Ensure n none = (n, none)
    ∧ Ensure n (some e.toGoErr) = (n, some e)
    ∧ Ensure n (some g) = (n, some ⟨defaultHTTPStatus, "internal.error",
        "internal", "internal error", GoMap.nil, some g⟩)
    ∧ Ensure n (some g2) = (n, some d) := by
  refine ⟨rfl, rfl, ?_, ?_⟩
  · simp only [Ensure, hnone]
    rfl
  · simp only [Ensure, hfound]

/-- Closed instance of `ensure_rules`: the hypotheses hold for the
plain error "boom" (no `*Error` in its chain) and for a wrapper whose
chain contains an `*Error`, and the wrapping rule produces the
internal envelope with the original as cause. -/
theorem ensure_rules_witness :
    errorsAs (GoErr.basic "boom") = none
    ∧ errorsAs (GoErr.wrapper "w" (some (GoErr.scg 404 "c" "k" "d"
        GoMap.nil none))) = some ⟨404, "c", "k", "d", GoMap.nil, none⟩
    ∧ Ensure 0 (some (GoErr.basic "boom")) = (0, some ⟨defaultHTTPStatus,
        "internal.error", "internal", "internal error", GoMap.nil,
        some (GoErr.basic "boom")⟩) :=
  ⟨rfl, rfl,
    (ensure_rules 0 ⟨404, "c", "k", "d", GoMap.nil, none⟩
      (GoErr.basic "boom")
      (GoErr.wrapper "w" (some (GoErr.scg 404 "c" "k" "d" GoMap.nil none)))
      ⟨404, "c", "k", "d", GoMap.nil, none⟩ rfl rfl).2.2.1⟩

/-- C3: for a non-empty context map `M` (all of whose map objects were
allocated before the counter `n`), constructing `e := New(..., M)` and
reading `out := Context()` gives a mapping structurally equal to `M`
(`eraseM`), while the internal map `e.context` and the returned `out`
share no map-object address with `M` or with each other — so they are
distinct references, and mutating any map object reachable from `M`
or from `out` (`mutM x f`) leaves the internal context unchanged,
hence every subsequent `Context()` read is unchanged; the freshness
covers nested map entries, which are cloned recursively. -/
theorem context_clone_independent (n a n1 n2 : Nat) (es : Entries)
    (s : Int) (c k d : String) (cause : Option GoErr)
    (e : Error) (out : GoMap)
    (hne : es.isNil = false)
    (hlt : ∀ x ∈ addrsM (GoMap.node a es), x < n)
    (hnew : New n s c k d (GoMap.node a es) cause = (n1, e))
    (hread : Context n1 (some e) = some (n2, out)) :
    eraseM out = eraseM (GoMap.node a es)
    ∧ (∀ x ∈ addrsM e.context, x ∉ addrsM (GoMap.node a es))
    ∧ (∀ x ∈ addrsM out, x ∉ addrsM (GoMap.node a es))
    ∧ (∀ x ∈ addrsM out, x ∉ addrsM e.context)
    ∧ out ≠ GoMap.node a es
    ∧ out ≠ e.context
    ∧ (∀ x ∈ addrsM (GoMap.node a es), ∀ f, mutM x f e.context = e.context)
    ∧ (∀ x ∈ addrsM out, ∀ f, mutM x f e.context = e.context) := by
  cases es with
  | nil => simp [Entries.isNil] at hne
  | cons k0 v0 rest0 =>
    simp only [New] at hnew
    injection hnew with hn1 he
    subst hn1
    subst he
    simp only [Context, Option.some.injEq] at hread
    have hn2 := congrArg Prod.fst hread
    have hout := congrArg Prod.snd hread
    simp only at hn2 hout
    set M : GoMap := GoMap.node a (Entries.cons k0 v0 rest0) with hM
    have h1 := cloneMap_bound n M
    have h2 := cloneMap_bound (cloneMap n M).1 (cloneMap n M).2
    have hamem : a ∈ addrsM M := by simp [hM, addrsM]
    have haltn : a < n := hlt a hamem
    have hintmem : n ∈ addrsM (cloneMap n M).2 := by
      simp [hM, cloneMap, addrsM]
    have houtsub : ∀ x ∈ addrsM out, (cloneMap n M).1 ≤ x := by
      intro x hx
      rw [← hout] at hx
      exact (h2.2 x hx).1
    have hintsub : ∀ x ∈ addrsM (cloneMap n M).2,
        n ≤ x ∧ x < (cloneMap n M).1 := h1.2
    refine ⟨?_, ?_, ?_, ?_, ?_, ?_, ?_, ?_⟩
    · rw [← hout]
      exact (cloneMap_erase (cloneMap n M).1 (cloneMap n M).2).trans
        (cloneMap_erase n M)
    · intro x hx hxM
      have := hintsub x hx
      have := hlt x hxM
      omega
    · intro x hx hxM
      have := houtsub x hx
      have := hlt x hxM
      have := h1.1
      omega
    · intro x hx hxint
      have := houtsub x hx
      have := hintsub x hxint
      omega
    · intro heq
      have : a ∈ addrsM out := heq ▸ hamem
      have := houtsub a this
      have := h1.1
      omega
    · intro heq
      have : n ∈ addrsM out := heq ▸ hintmem
      have := houtsub n this
      have := hintsub n hintmem
      omega
    · intro x hxM f
      refine mutM_not_mem x f _ ?_
      intro hxint
      have := hintsub x hxint
      have := hlt x hxM
      omega
    · intro x hx f
      refine mutM_not_mem x f _ ?_
      intro hxint
      have := hintsub x hxint
      have := houtsub x hx
      omega

/-- Closed instance of `context_clone_independent` at a two-level
context map holding a nested map entry: the hypotheses are discharged
by evaluation and the clone-independence conclusion is obtained for
the concrete construction and read. -/
theorem context_clone_independent_witness :
    Entries.isNil (Entries.cons "a" (Val.prim 1) (Entries.cons "b"
      (Val.vmap (GoMap.node 1 (Entries.cons "x" (Val.prim 2) Entries.nil)))
      Entries.nil)) = false
    ∧ (∀ x ∈ addrsM (GoMap.node 0 (Entries.cons "a" (Val.prim 1)
        (Entries.cons "b" (Val.vmap (GoMap.node 1 (Entries.cons "x"
          (Val.prim 2) Entries.nil))) Entries.nil))), x < 5)
    ∧ New 5 500 "c" "k" "d" (GoMap.node 0 (Entries.cons "a" (Val.prim 1)
        (Entries.cons "b" (Val.vmap (GoMap.node 1 (Entries.cons "x"
          (Val.prim 2) Entries.nil))) Entries.nil))) none
      = (7, ⟨500, "c", "k", "d", GoMap.node 5 (Entries.cons "a" (Val.prim 1)
          (Entries.cons "b" (Val.vmap (GoMap.node 6 (Entries.cons "x"
            (Val.prim 2) Entries.nil))) Entries.nil)), none⟩)
    ∧ Context 7 (some ⟨500, "c", "k", "d", GoMap.node 5 (Entries.cons "a"
        (Val.prim 1) (Entries.cons "b" (Val.vmap (GoMap.node 6
          (Entries.cons "x" (Val.prim 2) Entries.nil))) Entries.nil)), none⟩)
      = some (9, GoMap.node 7 (Entries.cons "a" (Val.prim 1)
          (Entries.cons "b" (Val.vmap (GoMap.node 8 (Entries.cons "x"
            (Val.prim 2) Entries.nil))) Entries.nil)))
    ∧ (eraseM (GoMap.node 7 (Entries.cons "a" (Val.prim 1)
        (Entries.cons "b" (Val.vmap (GoMap.node 8 (Entries.cons "x"
          (Val.prim 2) Entries.nil))) Entries.nil)))
        = eraseM (GoMap.node 0 (Entries.cons "a" (Val.prim 1)
          (Entries.cons "b" (Val.vmap (GoMap.node 1 (Entries.cons "x"
            (Val.prim 2) Entries.nil))) Entries.nil)))
      ∧ (∀ x ∈ addrsM (Error.context ⟨500, "c", "k", "d",
          GoMap.node 5 (Entries.cons "a" (Val.prim 1) (Entries.cons "b"
            (Val.vmap (GoMap.node 6 (Entries.cons "x" (Val.prim 2)
              Entries.nil))) Entries.nil)), none⟩),
          x ∉ addrsM (GoMap.node 0 (Entries.cons "a" (Val.prim 1)
            (Entries.cons "b" (Val.vmap (GoMap.node 1 (Entries.cons "x"
              (Val.prim 2) Entries.nil))) Entries.nil))))
      ∧ (∀ x ∈ addrsM (GoMap.node 7 (Entries.cons "a" (Val.prim 1)
          (Entries.cons "b" (Val.vmap (GoMap.node 8 (Entries.cons "x"
            (Val.prim 2) Entries.nil))) Entries.nil))),
          x ∉ addrsM (GoMap.node 0 (Entries.cons "a" (Val.prim 1)
            (Entries.cons "b" (Val.vmap (GoMap.node 1 (Entries.cons "x"
              (Val.prim 2) Entries.nil))) Entries.nil))))
      ∧ (∀ x ∈ addrsM (GoMap.node 7 (Entries.cons "a" (Val.prim 1)
          (Entries.cons "b" (Val.vmap (GoMap.node 8 (Entries.cons "x"
            (Val.prim 2) Entries.nil))) Entries.nil))),
          x ∉ addrsM (Error.context ⟨500, "c", "k", "d",
            GoMap.node 5 (Entries.cons "a" (Val.prim 1) (Entries.cons "b"
              (Val.vmap (GoMap.node 6 (Entries.cons "x" (Val.prim 2)
                Entries.nil))) Entries.nil)), none⟩))
      ∧ GoMap.node 7 (Entries.cons "a" (Val.prim 1)
          (Entries.cons "b" (Val.vmap (GoMap.node 8 (Entries.cons "x"
            (Val.prim 2) Entries.nil))) Entries.nil))
          ≠ GoMap.node 0 (Entries.cons "a" (Val.prim 1)
            (Entries.cons "b" (Val.vmap (GoMap.node 1 (Entries.cons "x"
              (Val.prim 2) Entries.nil))) Entries.nil))
      ∧ GoMap.node 7 (Entries.cons "a" (Val.prim 1)
          (Entries.cons "b" (Val.vmap (GoMap.node 8 (Entries.cons "x"
            (Val.prim 2) Entries.nil))) Entries.nil))
          ≠ Error.context ⟨500, "c", "k", "d", GoMap.node 5
            (Entries.cons "a" (Val.prim 1) (Entries.cons "b" (Val.vmap
              (GoMap.node 6 (Entries.cons "x" (Val.prim 2) Entries.nil)))
              Entries.nil)), none⟩
      ∧ (∀ x ∈ addrsM (GoMap.node 0 (Entries.cons "a" (Val.prim 1)
          (Entries.cons "b" (Val.vmap (GoMap.node 1 (Entries.cons "x"
            (Val.prim 2) Entries.nil))) Entries.nil))), ∀ f,
          mutM x f (Error.context ⟨500, "c", "k", "d", GoMap.node 5
            (Entries.cons "a" (Val.prim 1) (Entries.cons "b" (Val.vmap
              (GoMap.node 6 (Entries.cons "x" (Val.prim 2) Entries.nil)))
              Entries.nil)), none⟩)
            = Error.context ⟨500, "c", "k", "d", GoMap.node 5
              (Entries.cons "a" (Val.prim 1) (Entries.cons "b" (Val.vmap
                (GoMap.node 6 (Entries.cons "x" (Val.prim 2) Entries.nil)))
                Entries.nil)), none⟩)
      ∧ (∀ x ∈ addrsM (GoMap.node 7 (Entries.cons "a" (Val.prim 1)
          (Entries.cons "b" (Val.vmap (GoMap.node 8 (Entries.cons "x"
            (Val.prim 2) Entries.nil))) Entries.nil))), ∀ f,
          mutM x f (Error.context ⟨500, "c", "k", "d", GoMap.node 5
            (Entries.cons "a" (Val.prim 1) (Entries.cons "b" (Val.vmap
              (GoMap.node 6 (Entries.cons "x" (Val.prim 2) Entries.nil)))
              Entries.nil)), none⟩)
            = Error.context ⟨500, "c", "k", "d", GoMap.node 5
              (Entries.cons "a" (Val.prim 1) (Entries.cons "b" (Val.vmap
                (GoMap.node 6 (Entries.cons "x" (Val.prim 2) Entries.nil)))
                Entries.nil)), none⟩)) :=
  ⟨rfl, by decide, rfl, rfl,
    context_clone_independent 5 0 7 9
      (Entries.cons "a" (Val.prim 1) (Entries.cons "b"
        (Val.vmap (GoMap.node 1 (Entries.cons "x" (Val.prim 2)
          Entries.nil))) Entries.nil))
      500 "c" "k" "d" none
      ⟨500, "c", "k", "d", GoMap.node 5 (Entries.cons "a" (Val.prim 1)
        (Entries.cons "b" (Val.vmap (GoMap.node 6 (Entries.cons "x"
          (Val.prim 2) Entries.nil))) Entries.nil)), none⟩
      (GoMap.node 7 (Entries.cons "a" (Val.prim 1) (Entries.cons "b"
        (Val.vmap (GoMap.node 8 (Entries.cons "x" (Val.prim 2)
          Entries.nil))) Entries.nil)))
      rfl (by decide) rfl rfl⟩

/-- C9: `E(code, key)` with no options yields the defaults
`httpStatus = defaultHTTPStatus = 500`, `detail = "error"`, no context
and no cause; each of the four options rewrites exactly its own
attribute (the structure-update equations keep every other field);
`WithContext` stores a defensive clone of its argument (structurally
equal, addresses fresh); and options run left-to-right, so the last
option setting an attribute wins. -/
theorem e_builder_options (n : Nat) (c k : String) (e : Error)
    (s : Int) (d : String) (m : GoMap) (cs : Option GoErr)
    (opts : List OptSpec)
    (hm : ∀ x ∈ addrsM m, x < n) :
    E n c k [] = (n, ⟨defaultHTTPStatus, c, k, "error", GoMap.nil, none⟩)
    ∧ defaultHTTPStatus = 500
    ∧ applyOpt n e (.withHTTPStatus s) = (n, { e with httpStatus := s })
    ∧ applyOpt n e (.withDetail d) = (n, { e with detail := d })
    ∧ applyOpt n e (.withCause cs) = (n, { e with cause := cs })
    ∧ (applyOpt n e (.withContext m)).2 = { e with context := (cloneMap n m).2 }
    ∧ eraseM (applyOpt n e (.withContext m)).2.context = eraseM m
    ∧ (∀ x ∈ addrsM (applyOpt n e (.withContext m)).2.context, x ∉ addrsM m)
    ∧ (∀ o : OptSpec, E n c k (opts ++ [o])
        = applyOpt (E n c k opts).1 (E n c k opts).2 o)
    ∧ (E n c k (opts ++ [.withHTTPStatus s])).2.httpStatus = s
    ∧ (E n c k (opts ++ [.withDetail d])).2.detail = d
    ∧ (E n c k (opts ++ [.withCause cs])).2.cause = cs := by
  have happ : ∀ o : OptSpec, E n c k (opts ++ [o])
      = applyOpt (E n c k opts).1 (E n c k opts).2 o := by
    intro o
    simp only [E, List.foldl_append, List.foldl_cons, List.foldl_nil]
  refine ⟨rfl, rfl, rfl, rfl, rfl, rfl, cloneMap_erase n m, ?_, happ,
    ?_, ?_, ?_⟩
  · intro x hx hxm
    have := (cloneMap_bound n m).2 x hx
    have := hm x hxm
    omega
  · rw [happ (.withHTTPStatus s)]
    rfl
  · rw [happ (.withDetail d)]
    rfl
  · rw [happ (.withCause cs)]
    rfl

/-- Closed instance of `e_builder_options`: the freshness hypothesis
holds for a one-entry context map allocated at address 0 with counter
3, and the defaults, single-attribute updates and last-option-wins
conclusions are obtained at concrete arguments. -/
theorem e_builder_options_witness :
    (∀ x ∈ addrsM (GoMap.node 0 (Entries.cons "x" (Val.prim 1)
      Entries.nil)), x < 3)
    ∧ (E 3 "validation.failed" "validation" []
        = (3, ⟨defaultHTTPStatus, "validation.failed", "validation",
            "error", GoMap.nil, none⟩)
      ∧ defaultHTTPStatus = 500
      ∧ applyOpt 3 ⟨500, "validation.failed", "validation", "error",
          GoMap.nil, none⟩ (.withHTTPStatus 422)
        = (3, { (⟨500, "validation.failed", "validation", "error",
            GoMap.nil, none⟩ : Error) with httpStatus := 422 })
      ∧ applyOpt 3 ⟨500, "validation.failed", "validation", "error",
          GoMap.nil, none⟩ (.withDetail "payload invalid")
        = (3, { (⟨500, "validation.failed", "validation", "error",
            GoMap.nil, none⟩ : Error) with detail := "payload invalid" })
      ∧ applyOpt 3 ⟨500, "validation.failed", "validation", "error",
          GoMap.nil, none⟩ (.withCause (some (GoErr.basic "boom")))
        = (3, { (⟨500, "validation.failed", "validation", "error",
            GoMap.nil, none⟩ : Error) with cause := some (GoErr.basic "boom") })
      ∧ (applyOpt 3 ⟨500, "validation.failed", "validation", "error",
          GoMap.nil, none⟩ (.withContext (GoMap.node 0 (Entries.cons "x"
            (Val.prim 1) Entries.nil)))).2
        = { (⟨500, "validation.failed", "validation", "error",
            GoMap.nil, none⟩ : Error) with
            context := (cloneMap 3 (GoMap.node 0 (Entries.cons "x"
              (Val.prim 1) Entries.nil))).2 }
      ∧ eraseM (applyOpt 3 ⟨500, "validation.failed", "validation",
          "error", GoMap.nil, none⟩ (.withContext (GoMap.node 0
            (Entries.cons "x" (Val.prim 1) Entries.nil)))).2.context
        = eraseM (GoMap.node 0 (Entries.cons "x" (Val.prim 1) Entries.nil))
      ∧ (∀ x ∈ addrsM (applyOpt 3 ⟨500, "validation.failed",
          "validation", "error", GoMap.nil, none⟩
            (.withContext (GoMap.node 0 (Entries.cons "x" (Val.prim 1)
              Entries.nil)))).2.context,
          x ∉ addrsM (GoMap.node 0 (Entries.cons "x" (Val.prim 1)
            Entries.nil)))
      ∧ (∀ o : OptSpec, E 3 "validation.failed" "validation"
          ([.withHTTPStatus 400] ++ [o])
          = applyOpt (E 3 "validation.failed" "validation"
              [.withHTTPStatus 400]).1
            (E 3 "validation.failed" "validation" [.withHTTPStatus 400]).2 o)
      ∧ (E 3 "validation.failed" "validation"
          ([.withHTTPStatus 400] ++ [.withHTTPStatus 422])).2.httpStatus = 422
      ∧ (E 3 "validation.failed" "validation"
          ([.withHTTPStatus 400] ++ [.withDetail "payload invalid"])).2.detail
          = "payload invalid"
      ∧ (E 3 "validation.failed" "validation"
          ([.withHTTPStatus 400] ++ [.withCause (some (GoErr.basic
            "boom"))])).2.cause = some (GoErr.basic "boom")) :=
  ⟨by decide,
    e_builder_options 3 "validation.failed" "validation"
      ⟨500, "validation.failed", "validation", "error", GoMap.nil, none⟩
      422 "payload invalid"
      (GoMap.node 0 (Entries.cons "x" (Val.prim 1) Entries.nil))
      (some (GoErr.basic "boom")) [.withHTTPStatus 400] (by decide)⟩

end ScgError
